import Mathlib

/-
Shallow embedding of lsst/obs/base/gen3/ingest.py (RawIngestTask and
RawIngestConfig).  The Butler registry is an external collaborator; we embed
its observable state as an explicit Catalog value, and record every registry
call in an operation trace so that at-most-once properties of the in-process
dimension-entry cache can be stated.  Butler transactions are embedded as
scoped catalog snapshot/restore: on an error escaping the scope the catalog
(and only the catalog; in-memory task state is Python object state and is not
rolled back) is restored to its value at scope entry.
-/

set_option maxHeartbeats 1000000

/-- Dimension names handled by the ingest task: the set extracted in
RawIngestTask.__init__ (instrument, detector, physical_filter, visit,
exposure). -/
inductive DimName where
  | instrument
  | detector
  | physical_filter
  | visit
  | exposure
deriving DecidableEq

/-- Discriminating key values identifying one dimension entry, i.e. the
per-dimension projection of a DataId. -/
inductive DimKey where
  | instrument (name : String)
  | detector (inst : String) (det : Nat)
  | physical_filter (inst : String) (filt : String)
  | visit (inst : String) (v : Nat)
  | exposure (inst : String) (e : Nat)
deriving DecidableEq

/-- Sky region.  Geometry (lsst.sphgeom.ConvexPolygon) is an external
collaborator; the convex hull of a vertex list is determined by the vertices
handed to the constructor, so we record exactly that list.  Vertices are
abstracted to natural numbers (only their identity matters here). -/
structure Region where
  vertices : List Nat
deriving DecidableEq

/-- Constructor wrapper mirroring sphgeom's ConvexPolygon(vertices). -/
def ConvexPolygon (vs : List Nat) : Region := ⟨vs⟩

/-- Fields of astro_metadata_translator.ObservationInfo consumed by the task:
instrument, exposure_id, detector_num, visit_id (nullable), physical_filter
(nullable). -/
structure ObsInfo where
  instrument : String
  exposure_id : Nat
  detector_num : Nat
  visit_id : Option Nat
  physical_filter : Option String
deriving DecidableEq

/-- Data ID: a mapping restricted to a dimension set, with the value fields
the task reads from it. -/
structure DataId where
  dims : List DimName
  instrument : String
  exposure : Nat
  detector : Nat
  visit : Option Nat
  physical_filter : Option String
deriving DecidableEq

/-- The configured dimension set of the ingest task (RawIngestTask.__init__,
self.dimensions). -/
def allDimensions : List DimName :=
  [DimName.instrument, DimName.detector, DimName.physical_filter,
   DimName.visit, DimName.exposure]

/-- RawIngestTask.extractDataId: start from the full configured dimension set,
remove visit when the observation has no visit id and physical_filter when it
has no filter, and populate the value fields from the ObservationInfo. -/
def extractDataId (o : ObsInfo) : DataId :=
  let toRemove : List DimName :=
    (if o.visit_id = none then [DimName.visit] else []) ++
    (if o.physical_filter = none then [DimName.physical_filter] else [])
  { dims := allDimensions.filter (fun d => decide (d ∉ toRemove)),
    instrument := o.instrument,
    exposure := o.exposure_id,
    detector := o.detector_num,
    visit := o.visit_id,
    physical_filter := o.physical_filter }

/-- Projection of a DataId onto one dimension (DataId(fullDataId,
dimension=dimension)); none when the DataId lacks the dimension's value. -/
def dimKey (d : DimName) (id : DataId) : Option DimKey :=
  match d with
  | DimName.instrument => some (DimKey.instrument id.instrument)
  | DimName.detector => some (DimKey.detector id.instrument id.detector)
  | DimName.physical_filter =>
      id.physical_filter.map (fun f => DimKey.physical_filter id.instrument f)
  | DimName.visit => id.visit.map (fun v => DimKey.visit id.instrument v)
  | DimName.exposure => some (DimKey.exposure id.instrument id.exposure)

/-- Key of a raw dataset: the dimensions of the task's DatasetType
("instrument", "detector", "exposure"). -/
def dsKey (id : DataId) : String × Nat × Nat := (id.instrument, id.detector, id.exposure)

/-- Observable registry/datastore state.  Detector-level regions are keyed by
(instrument, visit, detector); visit-level regions by (instrument, visit);
datasets by (dataset key, collection). -/
structure Catalog where
  datasetTypes : List String
  dimensionEntries : List (DimName × DimKey)
  detectorRegions : List ((String × Nat × Nat) × Region)
  visitRegions : List ((String × Nat) × Region)
  datasets : List ((String × Nat × Nat) × String)
  collections : List String
deriving DecidableEq

/-- Registry calls, recorded so the cache's at-most-once claims can be
stated as properties of the call trace. -/
inductive CatalogOp where
  | findDim (d : DimName) (k : DimKey)
  | addDim (d : DimName) (k : DimKey)
  | setDetRegion (inst : String) (v : Nat) (det : Nat)
  | expandId (inst : String) (v : Nat)
  | setVisRegion (inst : String) (v : Nat)
  | ingestOp (key : String × Nat × Nat) (coll : String)
  | ensureRunOp (coll : String)
  | registerType (t : String)
deriving DecidableEq

/-- In-process state of one RawIngestTask instance: the dimension-entry cache
(self.dimensionEntriesDone), the accumulated visit-region map
(self.visitRegions, insertion-ordered), and whether the stash Run has been
registered (self.stashRun.id is not None). -/
structure TaskState where
  dimensionEntriesDone : List (DimName × DimKey)
  visitRegions : List ((String × Nat) × List Nat)
  stashRegistered : Bool
deriving DecidableEq

/-- Combined state threaded by every operation. -/
structure World where
  task : TaskState
  cat : Catalog
  trace : List CatalogOp
deriving DecidableEq

/-- RawIngestConfig.conflict. -/
inductive ConflictPolicy where
  | ignore
  | fail
deriving DecidableEq

/-- RawIngestConfig.onError (contin = "continue", brk = "break"). -/
inductive ErrorPolicy where
  | contin
  | brk
  | rollback
deriving DecidableEq

/-- RawIngestConfig together with the Butler's default run collection. -/
structure RawIngestConfig where
  conflict : ConflictPolicy
  stash : Option String
  onError : ErrorPolicy
  doAddRegions : Bool
  run : String
deriving DecidableEq

/-- Errors raised by the embedded pipeline: LookupError for a missing
prerequisite dimension entry, IngestConflictError, and the KeyError raised
when the region step projects a DataId that lacks a visit value. -/
inductive IngestErr where
  | lookupError (d : DimName) (k : DimKey)
  | ingestConflict (key : String × Nat × Nat) (coll : String)
  | visitKeyError
deriving DecidableEq

/-- A raw file, carrying the ObservationInfo its headers translate to and the
region vertices buildRegion computes from its WCS (geometry is external, so
the file carries its result). -/
structure RawFile where
  obsInfo : ObsInfo
  regionVertices : List Nat
deriving DecidableEq

/-- Association-list lookup. -/
def alistFind {α β : Type} [DecidableEq α] : List (α × β) → α → Option β
  | [], _ => none
  | (k', v) :: rest, k => if k' = k then some v else alistFind rest k

/-- Association-list update, replacing the value at the key (appending at the
end when absent). -/
def alistSet {α β : Type} [DecidableEq α] : List (α × β) → α → β → List (α × β)
  | [], k, v => [(k, v)]
  | (k', v') :: rest, k, v =>
      if k' = k then (k, v) :: rest else (k', v') :: alistSet rest k v

/-- Registry.findDimensionEntry. -/
def findDimensionEntry (d : DimName) (k : DimKey) (w : World) : Bool × World :=
  (decide ((d, k) ∈ w.cat.dimensionEntries),
   { w with trace := w.trace ++ [CatalogOp.findDim d k] })

/-- Registry.addDimensionEntry. -/
def addDimensionEntry (d : DimName) (k : DimKey) (w : World) : World :=
  { w with
    cat := { w.cat with dimensionEntries := (d, k) :: w.cat.dimensionEntries },
    trace := w.trace ++ [CatalogOp.addDim d k] }

/-- Registry.setDimensionRegion with update=False on the (instrument, visit,
detector) key: returns false (the IntegrityError case) when a region already
exists for that key, leaving the stored regions unchanged. -/
def setDetectorRegion (inst : String) (v : Nat) (det : Nat) (r : Region) (w : World) :
    Bool × World :=
  let w' := { w with trace := w.trace ++ [CatalogOp.setDetRegion inst v det] }
  match alistFind w.cat.detectorRegions (inst, v, det) with
  | some _ => (false, w')
  | none =>
      (true, { w' with cat :=
        { w'.cat with detectorRegions := ((inst, v, det), r) :: w'.cat.detectorRegions } })

/-- Registry.expandDataId(..., region=True).region for a visit. -/
def expandVisitRegion (inst : String) (v : Nat) (w : World) : Option Region × World :=
  (alistFind w.cat.visitRegions (inst, v),
   { w with trace := w.trace ++ [CatalogOp.expandId inst v] })

/-- Registry.setDimensionRegion on a visit (updating semantics: replaces any
prior value). -/
def setVisitRegion (inst : String) (v : Nat) (r : Region) (w : World) : World :=
  { w with
    cat := { w.cat with visitRegions := alistSet w.cat.visitRegions (inst, v) r },
    trace := w.trace ++ [CatalogOp.setVisRegion inst v] }

/-- Butler.ingest: the registry's atomic ingest primitive; fails with a
conflict (leaving the catalog unchanged) when the dataset key already has a
dataset in the destination collection. -/
def catalogIngest (key : String × Nat × Nat) (coll : String) (w : World) :
    Except IngestErr Unit × World :=
  let w' := { w with trace := w.trace ++ [CatalogOp.ingestOp key coll] }
  if (key, coll) ∈ w.cat.datasets then
    (Except.error (IngestErr.ingestConflict key coll), w')
  else
    (Except.ok (),
     { w' with cat := { w'.cat with datasets := (key, coll) :: w'.cat.datasets } })

/-- Registry.ensureRun. -/
def ensureRun (coll : String) (w : World) : World :=
  { w with
    cat := { w.cat with collections :=
      if coll ∈ w.cat.collections then w.cat.collections else coll :: w.cat.collections },
    trace := w.trace ++ [CatalogOp.ensureRunOp coll] }

/-- Registry.registerDatasetType (idempotent). -/
def registerDatasetType (t : String) (w : World) : World :=
  { w with
    cat := { w.cat with datasetTypes :=
      if t ∈ w.cat.datasetTypes then w.cat.datasetTypes else t :: w.cat.datasetTypes },
    trace := w.trace ++ [CatalogOp.registerType t] }

/-- Record a dimension entry as handled in the in-process cache
(self.dimensionEntriesDone[dimension].add(...)). -/
def markDone (d : DimName) (k : DimKey) (w : World) : World :=
  { w with task :=
    { w.task with dimensionEntriesDone := (d, k) :: w.task.dimensionEntriesDone } }

/-- The dimension loop of RawIngestTask.ensureDimensions: for each configured
dimension carried by the DataId, skip it when the cache already confirms it;
otherwise look it up in the registry; when absent, insert it if it is visit or
exposure and raise LookupError otherwise; finally mark the cache. -/
def ensureDimLoop (id : DataId) : List DimName → World → Except IngestErr Unit × World
  | [], w => (Except.ok (), w)
  | d :: rest, w =>
    match dimKey d id with
    | none => ensureDimLoop id rest w
    | some k =>
      if (d, k) ∈ w.task.dimensionEntriesDone then
        ensureDimLoop id rest w
      else
        let p := findDimensionEntry d k w
        if p.1 then
          ensureDimLoop id rest (markDone d k p.2)
        else if d = DimName.visit ∨ d = DimName.exposure then
          ensureDimLoop id rest (markDone d k (addDimensionEntry d k p.2))
        else
          (Except.error (IngestErr.lookupError d k), p.2)

/-- Python dict setdefault(key, []).extend(vs) on the visit-region map:
extends the list at the key in place, appending a new key at the end. -/
def accumulate (m : List ((String × Nat) × List Nat)) (key : String × Nat)
    (vs : List Nat) : List ((String × Nat) × List Nat) :=
  match alistFind m key with
  | some old => alistSet m key (old ++ vs)
  | none => m ++ [(key, vs)]

/-- The region block at the end of ensureDimensions: when doAddRegions is set,
project the DataId onto (visit, detector, instrument) — raising the KeyError
the source hits when the DataId has no visit value — then attempt the
detector-level region write with update=False, swallowing the IntegrityError
of an already-present region, and accumulate the vertices into the visit
map only on a successful first write. -/
def regionStep (cfg : RawIngestConfig) (id : DataId) (verts : List Nat) (w : World) :
    Except IngestErr Unit × World :=
  if cfg.doAddRegions then
    let region := ConvexPolygon verts
    match id.visit with
    | none => (Except.error IngestErr.visitKeyError, w)
    | some v =>
      let p := setDetectorRegion id.instrument v id.detector region w
      if p.1 then
        (Except.ok (),
         { p.2 with task := { p.2.task with
             visitRegions := accumulate p.2.task.visitRegions (id.instrument, v)
               region.vertices } })
      else
        (Except.ok (), p.2)
  else (Except.ok (), w)

/-- RawIngestTask.ensureDimensions: extract the DataId, run the dimension
loop, then the region block. -/
def ensureDimensions (cfg : RawIngestConfig) (f : RawFile) (w : World) :
    Except IngestErr DataId × World :=
  let id := extractDataId f.obsInfo
  match ensureDimLoop id allDimensions w with
  | (Except.error e, w1) => (Except.error e, w1)
  | (Except.ok _, w1) =>
    match regionStep cfg id f.regionVertices w1 with
    | (Except.error e, w2) => (Except.error e, w2)
    | (Except.ok _, w2) => (Except.ok id, w2)

/-- RawIngestTask.ingestFile: resolve the destination collection (defaulting
to the Butler's run) and call the registry's atomic ingest. -/
def ingestFile (cfg : RawIngestConfig) (id : DataId) (coll : Option String) (w : World) :
    Except IngestErr Unit × World :=
  catalogIngest (dsKey id) (coll.getD cfg.run) w

/-- Butler.transaction(): scoped commit-or-rollback.  On an error escaping
the scope the catalog is restored; the task's in-memory state and the call
trace are Python object state and are not rolled back. -/
def withTransaction {α : Type} (body : World → Except IngestErr α × World) (w : World) :
    Except IngestErr α × World :=
  match body w with
  | (Except.ok a, w') => (Except.ok a, w')
  | (Except.error e, w') => (Except.error e, { w' with cat := w.cat })

/-- The first transaction block of processFile (ingest into the default
collection): ok true means the file was ingested, ok false means an ingest
conflict was swallowed by the conflict=ignore branch (the scope then exits
normally), and under conflict=fail the conflict is re-raised so the scope
rolls back. -/
def attemptDefaultIngest (cfg : RawIngestConfig) (id : DataId) (w : World) :
    Except IngestErr Bool × World :=
  withTransaction (fun w0 =>
    match ingestFile cfg id none w0 with
    | (Except.ok _, w1) => (Except.ok true, w1)
    | (Except.error (IngestErr.ingestConflict key coll), w1) =>
      match cfg.conflict with
      | ConflictPolicy.fail => (Except.error (IngestErr.ingestConflict key coll), w1)
      | ConflictPolicy.ignore => (Except.ok false, w1)
    | (Except.error e, w1) => (Except.error e, w1)) w

/-- Lazy registration of the stash Run on first use (registry.ensureRun plus
the in-memory stashRun.id becoming set). -/
def registerStash (s : String) (w : World) : World :=
  let w1 := ensureRun s w
  { w1 with task := { w1.task with stashRegistered := true } }

/-- RawIngestTask.processFile: ensureDimensions, then the default-collection
ingest attempt inside a transaction; on a swallowed conflict under
conflict=ignore, either drop the file (no stash) or lazily register the stash
Run and retry the ingest into the stash inside a new transaction. -/
def processFile (cfg : RawIngestConfig) (f : RawFile) (w : World) :
    Except IngestErr Unit × World :=
  match ensureDimensions cfg f w with
  | (Except.error e, w1) => (Except.error e, w1)
  | (Except.ok id, w1) =>
    match attemptDefaultIngest cfg id w1 with
    | (Except.error e, w2) => (Except.error e, w2)
    | (Except.ok true, w2) => (Except.ok (), w2)
    | (Except.ok false, w2) =>
      match cfg.conflict with
      | ConflictPolicy.fail => (Except.ok (), w2)
      | ConflictPolicy.ignore =>
        match cfg.stash with
        | none => (Except.ok (), w2)
        | some s =>
          let w3 := if w2.task.stashRegistered then w2 else registerStash s w2
          withTransaction (fun w0 => ingestFile cfg id (some s) w0) w3

/-- The per-file loop of run under onError=rollback or break: stop at the
first error. -/
def processAll (cfg : RawIngestConfig) : List RawFile → World → Except IngestErr Unit × World
  | [], w => (Except.ok (), w)
  | f :: rest, w =>
    match processFile cfg f w with
    | (Except.ok _, w1) => processAll cfg rest w1
    | (Except.error e, w1) => (Except.error e, w1)

/-- The per-file loop of run under onError=continue: per-file errors are
logged and swallowed. -/
def processAllContinue (cfg : RawIngestConfig) : List RawFile → World → World
  | [], w => w
  | f :: rest, w => processAllContinue cfg rest (processFile cfg f w).2

/-- RawIngestTask._addVisitRegions, iterating the accumulated visit-region
map in insertion order: read any existing catalog region for the visit,
prepend its vertices, rebuild the convex polygon and write it back. -/
def addVisitRegionsLoop : List ((String × Nat) × List Nat) → World → World
  | [], w => w
  | ((i, v), verts) :: rest, w =>
    let p := expandVisitRegion i v w
    let allVerts := match p.1 with
      | some r => r.vertices ++ verts
      | none => verts
    addVisitRegionsLoop rest (setVisitRegion i v (ConvexPolygon allVerts) p.2)

/-- RawIngestTask._addVisitRegions. -/
def addVisitRegions (w : World) : World := addVisitRegionsLoop w.task.visitRegions w

/-- RawIngestTask.run: register the dataset type, process the files under the
configured batch error policy, and run the visit-region post-pass when region
computation is enabled (under rollback the whole batch, post-pass included,
runs inside one transaction). -/
def run (cfg : RawIngestConfig) (files : List RawFile) (w : World) :
    Except IngestErr Unit × World :=
  let w0 := registerDatasetType "raw" w
  match cfg.onError with
  | ErrorPolicy.rollback =>
    withTransaction (fun wt =>
      match processAll cfg files wt with
      | (Except.ok _, w1) => (Except.ok (), if cfg.doAddRegions then addVisitRegions w1 else w1)
      | (Except.error e, w1) => (Except.error e, w1)) w0
  | ErrorPolicy.brk =>
    match processAll cfg files w0 with
    | (Except.ok _, w1) => (Except.ok (), if cfg.doAddRegions then addVisitRegions w1 else w1)
    | (Except.error e, w1) => (Except.error e, w1)
  | ErrorPolicy.contin =>
    let w1 := processAllContinue cfg files w0
    (Except.ok (), if cfg.doAddRegions then addVisitRegions w1 else w1)

/-- A dimension whose entries must pre-exist (instrument, detector,
physical_filter): the loop refuses to create them. -/
def staticDim (d : DimName) : Prop := d ≠ DimName.visit ∧ d ≠ DimName.exposure

/-- Check that every static dimension carried by the DataId is already
confirmed by the cache or present in the catalog (so the dimension loop
cannot fail). -/
def staticReadyB (id : DataId) (w : World) : Bool :=
  [DimName.instrument, DimName.detector, DimName.physical_filter].all (fun d =>
    match dimKey d id with
    | some k =>
        decide ((d, k) ∈ w.task.dimensionEntriesDone) ||
        decide ((d, k) ∈ w.cat.dimensionEntries)
    | none => true)

/-- Does a recorded registry call read or write the dimension entry (d, k)? -/
def opTouchesDim (d : DimName) (k : DimKey) : CatalogOp → Bool
  | CatalogOp.findDim d2 k2 => decide (d2 = d) && decide (k2 = k)
  | CatalogOp.addDim d2 k2 => decide (d2 = d) && decide (k2 = k)
  | _ => false

/-- The sub-trace of registry calls that read or write the dimension entry
(d, k). -/
def dimTrace (d : DimName) (k : DimKey) (tr : List CatalogOp) : List CatalogOp :=
  tr.filter (opTouchesDim d k)

/-- Vertices of an optional region (empty when absent). -/
def regVerts : Option Region → List Nat
  | none => []
  | some r => r.vertices

/-- Value of an optional vertex list (empty when absent). -/
def optVerts : Option (List Nat) → List Nat
  | none => []
  | some vs => vs

/-- Fold a sequence of per-file (key, vertices) contributions into the
visit-region map, one accumulate call per successfully reconciled file. -/
def accumAll (m : List ((String × Nat) × List Nat))
    (contributions : List ((String × Nat) × List Nat)) :
    List ((String × Nat) × List Nat) :=
  contributions.foldl (fun acc p => accumulate acc p.1 p.2) m

/-- The vertex lists contributed to one key, in contribution order. -/
def contribs (key : String × Nat) (contributions : List ((String × Nat) × List Nat)) :
    List (List Nat) :=
  contributions.filterMap (fun p => if p.1 = key then some p.2 else none)

/-- Concrete observation used by the witnesses: full identity. -/
def obsA : ObsInfo :=
  { instrument := "i", exposure_id := 1, detector_num := 2,
    visit_id := some 3, physical_filter := some "f" }

/-- Concrete observation with no visit id. -/
def obsNoVisit : ObsInfo :=
  { instrument := "i", exposure_id := 1, detector_num := 2,
    visit_id := none, physical_filter := some "f" }

def fileA : RawFile := { obsInfo := obsA, regionVertices := [10, 11] }

def fileNoVisit : RawFile := { obsInfo := obsNoVisit, regionVertices := [10, 11] }

/-- Catalog holding exactly the static prerequisite entries for obsA. -/
def catStatics : Catalog :=
  { datasetTypes := [],
    dimensionEntries :=
      [(DimName.instrument, DimKey.instrument "i"),
       (DimName.detector, DimKey.detector "i" 2),
       (DimName.physical_filter, DimKey.physical_filter "i" "f")],
    detectorRegions := [], visitRegions := [], datasets := [], collections := [] }

def emptyCatalog : Catalog :=
  { datasetTypes := [], dimensionEntries := [], detectorRegions := [],
    visitRegions := [], datasets := [], collections := [] }

def emptyTask : TaskState :=
  { dimensionEntriesDone := [], visitRegions := [], stashRegistered := false }

def wEmpty : World := { task := emptyTask, cat := emptyCatalog, trace := [] }

def wStatics : World := { task := emptyTask, cat := catStatics, trace := [] }

/-- World in which the default collection already holds the obsA dataset. -/
def wConflict : World :=
  { task := emptyTask,
    cat := { catStatics with datasets := [(("i", 2, 1), "r")] },
    trace := [] }

/-- World in which the exposure entry for obsA is already cached. -/
def wCachedExp : World :=
  { task := { emptyTask with
      dimensionEntriesDone := [(DimName.exposure, DimKey.exposure "i" 1)] },
    cat := catStatics, trace := [] }

/-- World in which a detector-level region already exists for obsA's
(instrument, visit, detector). -/
def wDetReg : World :=
  { task := emptyTask,
    cat := { catStatics with detectorRegions := [(("i", 3, 2), ConvexPolygon [9])] },
    trace := [] }

/-- World with one accumulated visit-region entry. -/
def wAccum : World :=
  { task := { emptyTask with visitRegions := [(("i", 3), [10, 11])] },
    cat := catStatics, trace := [] }

def cfgContinR : RawIngestConfig :=
  { conflict := ConflictPolicy.ignore, stash := none, onError := ErrorPolicy.contin,
    doAddRegions := true, run := "r" }

def cfgRoll : RawIngestConfig :=
  { conflict := ConflictPolicy.ignore, stash := none, onError := ErrorPolicy.rollback,
    doAddRegions := true, run := "r" }

def cfgFail : RawIngestConfig :=
  { conflict := ConflictPolicy.fail, stash := none, onError := ErrorPolicy.contin,
    doAddRegions := false, run := "r" }

def cfgStash : RawIngestConfig :=
  { conflict := ConflictPolicy.ignore, stash := some "s", onError := ErrorPolicy.contin,
    doAddRegions := false, run := "r" }

def cfgNoReg : RawIngestConfig :=
  { conflict := ConflictPolicy.ignore, stash := none, onError := ErrorPolicy.contin,
    doAddRegions := false, run := "r" }

/-- World whose catalog lacks the physical_filter entry for obsA. -/
def wNoPf : World :=
  { task := emptyTask,
    cat := { emptyCatalog with
      dimensionEntries :=
        [(DimName.instrument, DimKey.instrument "i"),
         (DimName.detector, DimKey.detector "i" 2)] },
    trace := [] }

lemma alistFind_alistSet_self {α β : Type} [DecidableEq α] (l : List (α × β)) (k : α) (v : β) :
    alistFind (alistSet l k v) k = some v := by
  induction l with
  | nil => simp [alistSet, alistFind]
  | cons p rest ih =>
    obtain ⟨k', v'⟩ := p
    by_cases h : k' = k
    · subst h
      simp [alistSet, alistFind]
    · simp [alistSet, alistFind, h, ih]

lemma alistFind_alistSet_ne {α β : Type} [DecidableEq α] (l : List (α × β)) (k k2 : α) (v : β)
    (h : k ≠ k2) : alistFind (alistSet l k v) k2 = alistFind l k2 := by
  induction l with
  | nil => simp [alistSet, alistFind, h]
  | cons p rest ih =>
    obtain ⟨k', v'⟩ := p
    by_cases h' : k' = k
    · subst h'
      simp [alistSet, alistFind, h]
    · simp [alistSet, alistFind, h', ih]

lemma alistFind_append {α β : Type} [DecidableEq α] (l l2 : List (α × β)) (k : α) :
    alistFind (l ++ l2) k =
      (match alistFind l k with
       | some v => some v
       | none => alistFind l2 k) := by
  induction l with
  | nil => simp [alistFind]
  | cons p rest ih =>
    obtain ⟨k', v'⟩ := p
    by_cases h : k' = k
    · simp [alistFind, h]
    · simp [alistFind, h, ih]

lemma optVerts_accumulate (m : List ((String × Nat) × List Nat)) (k' k : String × Nat)
    (vs : List Nat) :
    optVerts (alistFind (accumulate m k' vs) k) =
      optVerts (alistFind m k) ++ (if k' = k then vs else []) := by
  unfold accumulate
  rcases h : alistFind m k' with _ | old
  · rw [alistFind_append]
    by_cases hk : k' = k
    · subst hk
      simp [h, alistFind, optVerts]
    · rcases h2 : alistFind m k with _ | v
      · simp [h2, alistFind, hk, optVerts, Ne.symm hk]
      · simp [h2, alistFind, hk, optVerts]
  · by_cases hk : k' = k
    · subst hk
      rw [alistFind_alistSet_self]
      simp [h, optVerts]
    · rw [alistFind_alistSet_ne _ _ _ _ hk]
      simp [hk]

lemma optVerts_accumAll (m : List ((String × Nat) × List Nat))
    (L : List ((String × Nat) × List Nat)) (k : String × Nat) :
    optVerts (alistFind (accumAll m L) k) =
      optVerts (alistFind m k) ++ (contribs k L).flatten := by
  induction L generalizing m with
  | nil => simp [accumAll, contribs]
  | cons p rest ih =>
    obtain ⟨k', vs⟩ := p
    have hstep : accumAll m ((k', vs) :: rest) = accumAll (accumulate m k' vs) rest := rfl
    rw [hstep, ih, optVerts_accumulate]
    by_cases hk : k' = k
    · subst hk
      simp [contribs, List.filterMap_cons, List.append_assoc]
    · simp [contribs, List.filterMap_cons, hk]

lemma contribs_perm (k : String × Nat) (L1 L2 : List ((String × Nat) × List Nat))
    (h : L1.Perm L2) : (contribs k L1).Perm (contribs k L2) :=
  h.filterMap _

lemma optVerts_accumAll_perm (m : List ((String × Nat) × List Nat))
    (L1 L2 : List ((String × Nat) × List Nat)) (k : String × Nat) (h : L1.Perm L2) :
    (optVerts (alistFind (accumAll m L1) k)).Perm (optVerts (alistFind (accumAll m L2) k)) := by
  rw [optVerts_accumAll, optVerts_accumAll]
  exact List.Perm.append_left _ ((contribs_perm k L1 L2 h).flatten)

lemma addVisitRegionsLoop_task (entries : List ((String × Nat) × List Nat)) (w : World) :
    (addVisitRegionsLoop entries w).task = w.task := by
  induction entries generalizing w with
  | nil => rfl
  | cons p rest ih =>
    obtain ⟨⟨i, v⟩, verts⟩ := p
    rw [addVisitRegionsLoop, ih]
    rfl

lemma addVisitRegionsLoop_find_not_mem (entries : List ((String × Nat) × List Nat))
    (w : World) (key : String × Nat) (h : key ∉ entries.map Prod.fst) :
    alistFind (addVisitRegionsLoop entries w).cat.visitRegions key =
      alistFind w.cat.visitRegions key := by
  induction entries generalizing w with
  | nil => rfl
  | cons p rest ih =>
    obtain ⟨⟨i, v⟩, verts⟩ := p
    simp only [List.map_cons, List.mem_cons] at h
    push_neg at h
    rw [addVisitRegionsLoop, ih _ h.2]
    exact alistFind_alistSet_ne _ _ _ _ (fun hh => h.1 hh.symm)

lemma addVisitRegionsLoop_find (entries : List ((String × Nat) × List Nat)) (w : World)
    (i : String) (v : Nat) (verts : List Nat)
    (hnd : (entries.map Prod.fst).Nodup) (hmem : ((i, v), verts) ∈ entries) :
    alistFind (addVisitRegionsLoop entries w).cat.visitRegions (i, v) =
      some (ConvexPolygon (regVerts (alistFind w.cat.visitRegions (i, v)) ++ verts)) := by
  induction entries generalizing w with
  | nil => cases hmem
  | cons p rest ih =>
    obtain ⟨⟨i0, v0⟩, verts0⟩ := p
    simp only [List.map_cons, List.nodup_cons] at hnd
    rcases List.mem_cons.mp hmem with heq | hrest
    · have h1 : (i = i0 ∧ v = v0) ∧ verts = verts0 := by simpa using heq
      obtain ⟨⟨rfl, rfl⟩, rfl⟩ := h1
      rw [addVisitRegionsLoop]
      have hnotin : (i, v) ∉ rest.map Prod.fst := hnd.1
      rw [addVisitRegionsLoop_find_not_mem rest _ _ hnotin]
      rcases hfind : alistFind w.cat.visitRegions (i, v) with _ | r
      · simp only [expandVisitRegion, hfind, setVisitRegion]
        rw [alistFind_alistSet_self]
        simp [regVerts, hfind]
      · simp only [expandVisitRegion, hfind, setVisitRegion]
        rw [alistFind_alistSet_self]
        simp [regVerts, hfind]
    · have hne : (i0, v0) ≠ (i, v) := by
        intro hh
        exact hnd.1 (hh ▸ (List.mem_map.mpr ⟨((i, v), verts), hrest, rfl⟩))
      rw [addVisitRegionsLoop]
      rw [ih _ hnd.2 hrest]
      congr 2
      simp only [setVisitRegion, expandVisitRegion]
      rw [alistFind_alistSet_ne _ _ _ _ hne]

lemma ensureDimLoop_mono (id : DataId) (dims : List DimName) :
    ∀ w : World,
      w.task.dimensionEntriesDone ⊆ (ensureDimLoop id dims w).2.task.dimensionEntriesDone ∧
      w.cat.dimensionEntries ⊆ (ensureDimLoop id dims w).2.cat.dimensionEntries := by
  induction dims with
  | nil => exact fun w => ⟨fun _ h => h, fun _ h => h⟩
  | cons d rest ih =>
    intro w
    simp only [ensureDimLoop]
    split
    · exact ih w
    · rename_i k hk
      split
      · exact ih w
      · split
        · refine ⟨List.Subset.trans ?_ (ih _).1, List.Subset.trans ?_ (ih _).2⟩
          · exact List.subset_cons_self _ _
          · exact fun x h => h
        · split
          · refine ⟨List.Subset.trans ?_ (ih _).1, List.Subset.trans ?_ (ih _).2⟩
            · exact List.subset_cons_self _ _
            · exact List.subset_cons_self _ _
          · exact ⟨fun _ h => h, fun _ h => h⟩

lemma ensureDimLoop_addsOnly (id : DataId) (dims : List DimName) :
    ∀ w : World, ∀ x, x ∈ (ensureDimLoop id dims w).2.cat.dimensionEntries →
      x ∈ w.cat.dimensionEntries ∨ x.1 = DimName.visit ∨ x.1 = DimName.exposure := by
  induction dims with
  | nil => exact fun w x h => Or.inl h
  | cons d0 rest ih =>
    intro w x hx
    simp only [ensureDimLoop] at hx
    split at hx
    · exact ih w x hx
    · rename_i k0 hk0
      split at hx
      · exact ih w x hx
      · split at hx
        · exact ih (markDone d0 k0 (findDimensionEntry d0 k0 w).2) x hx
        · split at hx
          · rename_i hve0
            rcases ih (markDone d0 k0 (addDimensionEntry d0 k0 (findDimensionEntry d0 k0 w).2)) x hx with h | h
            · rcases List.mem_cons.mp h with rfl | h2
              · rcases hve0 with h3 | h3
                · exact Or.inr (Or.inl (by simp [h3]))
                · exact Or.inr (Or.inr (by simp [h3]))
              · exact Or.inl h2
            · exact Or.inr h
          · exact Or.inl hx

lemma ensureDimLoop_ok (id : DataId) (dims : List DimName) :
    ∀ w : World,
      (∀ d ∈ dims, (d ≠ DimName.visit ∧ d ≠ DimName.exposure) → ∀ k, dimKey d id = some k →
        (d, k) ∈ w.task.dimensionEntriesDone ∨ (d, k) ∈ w.cat.dimensionEntries) →
      (ensureDimLoop id dims w).1 = Except.ok () := by
  induction dims with
  | nil => intro w _; rfl
  | cons d0 rest ih =>
    intro w hready
    simp only [ensureDimLoop]
    split
    · exact ih w (fun d' hd' => hready d' (List.mem_cons_of_mem _ hd'))
    · rename_i k0 hk0
      split
      · exact ih w (fun d' hd' => hready d' (List.mem_cons_of_mem _ hd'))
      · rename_i hnin0
        split
        · refine ih _ (fun d' hd' hst k' hk' => ?_)
          rcases hready d' (List.mem_cons_of_mem _ hd') hst k' hk' with h | h
          · exact Or.inl (List.mem_cons_of_mem _ h)
          · exact Or.inr h
        · split
          · refine ih _ (fun d' hd' hst k' hk' => ?_)
            rcases hready d' (List.mem_cons_of_mem _ hd') hst k' hk' with h | h
            · exact Or.inl (List.mem_cons_of_mem _ h)
            · exact Or.inr (List.mem_cons_of_mem _ h)
          · rename_i hfalse hnve
            exfalso
            push_neg at hnve
            rcases hready d0 (List.mem_cons_self _ _) hnve k0 hk0 with h | h
            · exact hnin0 h
            · exact hfalse (by simpa [findDimensionEntry] using h)

lemma ensureDimLoop_marks (id : DataId) (dims : List DimName) :
    ∀ w : World, (ensureDimLoop id dims w).1 = Except.ok () →
      ∀ d ∈ dims, ∀ k, dimKey d id = some k →
        (d, k) ∈ (ensureDimLoop id dims w).2.task.dimensionEntriesDone := by
  induction dims with
  | nil => intro w _ d hd; cases hd
  | cons d0 rest ih =>
    intro w hok d hd k hk
    rcases List.mem_cons.mp hd with rfl | hd'
    · simp only [ensureDimLoop, hk] at hok ⊢
      split at hok
      · rename_i hin
        rw [if_pos hin]
        exact (ensureDimLoop_mono id rest w).1 hin
      · rename_i hnin
        rw [if_neg hnin]
        split at hok
        · rename_i htrue
          rw [if_pos htrue]
          exact (ensureDimLoop_mono id rest _).1 (List.mem_cons_self _ _)
        · rename_i hfalse
          rw [if_neg hfalse]
          split at hok
          · rename_i hve
            rw [if_pos hve]
            exact (ensureDimLoop_mono id rest _).1 (List.mem_cons_self _ _)
          · simp at hok
    · simp only [ensureDimLoop] at hok ⊢
      split at hok
      · exact ih w hok d hd' k hk
      · rename_i k0 hk0
        split at hok
        · rename_i hin
          rw [if_pos hin]
          exact ih w hok d hd' k hk
        · rename_i hnin
          rw [if_neg hnin]
          split at hok
          · rename_i htrue
            rw [if_pos htrue]
            exact ih (markDone d0 k0 (findDimensionEntry d0 k0 w).2) hok d hd' k hk
          · rename_i hfalse
            rw [if_neg hfalse]
            split at hok
            · rename_i hve
              rw [if_pos hve]
              exact ih (markDone d0 k0 (addDimensionEntry d0 k0 (findDimensionEntry d0 k0 w).2)) hok d hd' k hk
            · simp at hok

lemma opTouchesDim_find_ne (d : DimName) (k : DimKey) (d0 : DimName) (k0 : DimKey)
    (h : ¬(d0 = d ∧ k0 = k)) : opTouchesDim d k (CatalogOp.findDim d0 k0) = false := by
  by_cases h1 : d0 = d
  · by_cases h2 : k0 = k
    · exact absurd ⟨h1, h2⟩ h
    · simp [opTouchesDim, h2]
  · simp [opTouchesDim, h1]

lemma opTouchesDim_add_ne (d : DimName) (k : DimKey) (d0 : DimName) (k0 : DimKey)
    (h : ¬(d0 = d ∧ k0 = k)) : opTouchesDim d k (CatalogOp.addDim d0 k0) = false := by
  by_cases h1 : d0 = d
  · by_cases h2 : k0 = k
    · exact absurd ⟨h1, h2⟩ h
    · simp [opTouchesDim, h2]
  · simp [opTouchesDim, h1]

lemma dimTrace_append (d : DimName) (k : DimKey) (t1 t2 : List CatalogOp) :
    dimTrace d k (t1 ++ t2) = dimTrace d k t1 ++ dimTrace d k t2 := by
  simp [dimTrace, List.filter_append]

lemma dimTrace_untouched (d : DimName) (k : DimKey) (t : List CatalogOp) (op : CatalogOp)
    (h : opTouchesDim d k op = false) : dimTrace d k (t ++ [op]) = dimTrace d k t := by
  rw [dimTrace_append]
  simp [dimTrace, h]

lemma ensureDimLoop_trace_cached (id : DataId) (dims : List DimName) (d : DimName) (k : DimKey) :
    ∀ w : World, (d, k) ∈ w.task.dimensionEntriesDone →
      dimTrace d k (ensureDimLoop id dims w).2.trace = dimTrace d k w.trace := by
  induction dims with
  | nil => intro w _; rfl
  | cons d0 rest ih =>
    intro w hin
    simp only [ensureDimLoop]
    split
    · exact ih w hin
    · rename_i k0 hk0
      split
      · exact ih w hin
      · rename_i hnin0
        have hne : ¬(d0 = d ∧ k0 = k) := by
          rintro ⟨rfl, rfl⟩
          exact hnin0 hin
        split
        · rw [ih (markDone d0 k0 (findDimensionEntry d0 k0 w).2) (List.mem_cons_of_mem _ hin)]
          exact dimTrace_untouched d k w.trace _ (opTouchesDim_find_ne d k d0 k0 hne)
        · split
          · rw [ih (markDone d0 k0 (addDimensionEntry d0 k0 (findDimensionEntry d0 k0 w).2))
              (List.mem_cons_of_mem _ hin)]
            show dimTrace d k ((w.trace ++ [CatalogOp.findDim d0 k0]) ++ [CatalogOp.addDim d0 k0])
              = dimTrace d k w.trace
            rw [dimTrace_untouched _ _ _ _ (opTouchesDim_add_ne d k d0 k0 hne)]
            exact dimTrace_untouched d k w.trace _ (opTouchesDim_find_ne d k d0 k0 hne)
          · exact dimTrace_untouched d k w.trace _ (opTouchesDim_find_ne d k d0 k0 hne)

lemma regionStep_task_done (cfg : RawIngestConfig) (id : DataId) (verts : List Nat) (w : World) :
    (regionStep cfg id verts w).2.task.dimensionEntriesDone = w.task.dimensionEntriesDone := by
  unfold regionStep
  split
  · split
    · rfl
    · unfold setDetectorRegion
      split <;> rfl
  · rfl

lemma regionStep_cat_dims (cfg : RawIngestConfig) (id : DataId) (verts : List Nat) (w : World) :
    (regionStep cfg id verts w).2.cat.dimensionEntries = w.cat.dimensionEntries := by
  unfold regionStep
  split
  · split
    · rfl
    · unfold setDetectorRegion
      split <;> rfl
  · rfl

lemma regionStep_dimTrace (cfg : RawIngestConfig) (id : DataId) (verts : List Nat) (w : World)
    (d : DimName) (k : DimKey) :
    dimTrace d k (regionStep cfg id verts w).2.trace = dimTrace d k w.trace := by
  unfold regionStep
  split
  · split
    · rfl
    · unfold setDetectorRegion
      split <;>
        exact dimTrace_untouched d k w.trace _ (by simp [opTouchesDim])
  · rfl

lemma ensureDimLoop_inserts (id : DataId) (dims : List DimName) (d : DimName) (k : DimKey) :
    ∀ w : World, d ∈ dims → dimKey d id = some k →
      (d = DimName.visit ∨ d = DimName.exposure) →
      (d, k) ∉ w.task.dimensionEntriesDone → (d, k) ∉ w.cat.dimensionEntries →
      (∀ d' ∈ dims, (d' ≠ DimName.visit ∧ d' ≠ DimName.exposure) → ∀ k', dimKey d' id = some k' →
        (d', k') ∈ w.task.dimensionEntriesDone ∨ (d', k') ∈ w.cat.dimensionEntries) →
      (d, k) ∈ (ensureDimLoop id dims w).2.cat.dimensionEntries := by
  induction dims with
  | nil => intro w hd; cases hd
  | cons d0 rest ih =>
    intro w hd hk hve hnd hnc hready
    by_cases hdd : d0 = d
    · subst hdd
      simp only [ensureDimLoop, hk]
      rw [if_neg hnd]
      rw [if_neg (show ¬((findDimensionEntry d0 k w).1 = true) from
        fun h => hnc (of_decide_eq_true h))]
      rw [if_pos hve]
      exact (ensureDimLoop_mono id rest _).2 (List.mem_cons_self _ _)
    · have hd' : d ∈ rest := by
        rcases List.mem_cons.mp hd with h | h
        · exact absurd h.symm hdd
        · exact h
      simp only [ensureDimLoop]
      split
      · exact ih w hd' hk hve hnd hnc (fun d2 h2 => hready d2 (List.mem_cons_of_mem _ h2))
      · rename_i k0 hk0
        have hne : (d0, k0) ≠ (d, k) := fun h => hdd (congrArg Prod.fst h)
        split
        · exact ih w hd' hk hve hnd hnc (fun d2 h2 => hready d2 (List.mem_cons_of_mem _ h2))
        · split
          · refine ih (markDone d0 k0 (findDimensionEntry d0 k0 w).2) hd' hk hve ?_ hnc ?_
            · intro hmem
              rcases List.mem_cons.mp hmem with h | h
              · exact hne h.symm
              · exact hnd h
            · intro d2 h2 hst k2 hk2
              rcases hready d2 (List.mem_cons_of_mem _ h2) hst k2 hk2 with h | h
              · exact Or.inl (List.mem_cons_of_mem _ h)
              · exact Or.inr h
          · split
            · refine ih (markDone d0 k0 (addDimensionEntry d0 k0 (findDimensionEntry d0 k0 w).2))
                hd' hk hve ?_ ?_ ?_
              · intro hmem
                rcases List.mem_cons.mp hmem with h | h
                · exact hne h.symm
                · exact hnd h
              · intro hmem
                rcases List.mem_cons.mp hmem with h | h
                · exact hne h.symm
                · exact hnc h
              · intro d2 h2 hst k2 hk2
                rcases hready d2 (List.mem_cons_of_mem _ h2) hst k2 hk2 with h | h
                · exact Or.inl (List.mem_cons_of_mem _ h)
                · exact Or.inr (List.mem_cons_of_mem _ h)
            · rename_i hnin0 hfalse hnve0
              exfalso
              push_neg at hnve0
              rcases hready d0 (List.mem_cons_self _ _) hnve0 k0 hk0 with h | h
              · exact hnin0 h
              · exact hfalse (decide_eq_true h)

lemma ensureDimLoop_staticMissing (id : DataId) (dims : List DimName) (d : DimName) (k : DimKey) :
    ∀ w : World, d ∈ dims → dimKey d id = some k →
      d ≠ DimName.visit → d ≠ DimName.exposure →
      (d, k) ∉ w.task.dimensionEntriesDone → (d, k) ∉ w.cat.dimensionEntries →
      (∃ d' k', d' ≠ DimName.visit ∧ d' ≠ DimName.exposure ∧
         (ensureDimLoop id dims w).1 = Except.error (IngestErr.lookupError d' k')) ∧
      (d, k) ∉ (ensureDimLoop id dims w).2.cat.dimensionEntries := by
  induction dims with
  | nil => intro w hd; cases hd
  | cons d0 rest ih =>
    intro w hd hk hv he hnd hnc
    by_cases hdd : d0 = d
    · subst hdd
      simp only [ensureDimLoop, hk]
      rw [if_neg hnd]
      rw [if_neg (show ¬((findDimensionEntry d0 k w).1 = true) from
        fun h => hnc (of_decide_eq_true h))]
      rw [if_neg (show ¬(d0 = DimName.visit ∨ d0 = DimName.exposure) by
        rintro (h | h)
        · exact hv h
        · exact he h)]
      exact ⟨⟨d0, k, hv, he, rfl⟩, hnc⟩
    · have hd' : d ∈ rest := by
        rcases List.mem_cons.mp hd with h | h
        · exact absurd h.symm hdd
        · exact h
      simp only [ensureDimLoop]
      split
      · exact ih w hd' hk hv he hnd hnc
      · rename_i k0 hk0
        have hne : (d0, k0) ≠ (d, k) := fun h => hdd (congrArg Prod.fst h)
        split
        · exact ih w hd' hk hv he hnd hnc
        · split
          · refine ih (markDone d0 k0 (findDimensionEntry d0 k0 w).2) hd' hk hv he ?_ hnc
            intro hmem
            rcases List.mem_cons.mp hmem with h | h
            · exact hne h.symm
            · exact hnd h
          · split
            · refine ih (markDone d0 k0 (addDimensionEntry d0 k0 (findDimensionEntry d0 k0 w).2))
                hd' hk hv he ?_ ?_
              · intro hmem
                rcases List.mem_cons.mp hmem with h | h
                · exact hne h.symm
                · exact hnd h
              · intro hmem
                rcases List.mem_cons.mp hmem with h | h
                · exact hne h.symm
                · exact hnc h
            · rename_i hnin0 hfalse hnve0
              push_neg at hnve0
              exact ⟨⟨d0, k0, hnve0.1, hnve0.2, rfl⟩, hnc⟩

lemma staticReadyB_spec (id : DataId) (w : World) (h : staticReadyB id w = true) :
    ∀ d, (d ≠ DimName.visit ∧ d ≠ DimName.exposure) → ∀ k, dimKey d id = some k →
      (d, k) ∈ w.task.dimensionEntriesDone ∨ (d, k) ∈ w.cat.dimensionEntries := by
  intro d hst k hk
  have hmem : d ∈ [DimName.instrument, DimName.detector, DimName.physical_filter] := by
    cases d
    · simp
    · simp
    · simp
    · exact absurd rfl hst.1
    · exact absurd rfl hst.2
  have h2 := (List.all_eq_true.mp h) d hmem
  simp only [hk] at h2
  rcases (Bool.or_eq_true _ _).mp h2 with h1 | h1
  · exact Or.inl (of_decide_eq_true h1)
  · exact Or.inr (of_decide_eq_true h1)

lemma ensureDimensions_cat_dims (cfg : RawIngestConfig) (f : RawFile) (w : World) :
    (ensureDimensions cfg f w).2.cat.dimensionEntries =
      (ensureDimLoop (extractDataId f.obsInfo) allDimensions w).2.cat.dimensionEntries := by
  rcases hloop : ensureDimLoop (extractDataId f.obsInfo) allDimensions w with ⟨r1, w1⟩
  rcases r1 with e | u
  · simp [ensureDimensions, hloop]
  · simp only [ensureDimensions, hloop]
    rcases hreg : regionStep cfg (extractDataId f.obsInfo) f.regionVertices w1 with ⟨r2, w2⟩
    have hpres := regionStep_cat_dims cfg (extractDataId f.obsInfo) f.regionVertices w1
    rw [hreg] at hpres
    rcases r2 with e2 | u2
    · simpa using hpres
    · simpa using hpres

lemma ensureDimensions_task_done (cfg : RawIngestConfig) (f : RawFile) (w : World) :
    (ensureDimensions cfg f w).2.task.dimensionEntriesDone =
      (ensureDimLoop (extractDataId f.obsInfo) allDimensions w).2.task.dimensionEntriesDone := by
  rcases hloop : ensureDimLoop (extractDataId f.obsInfo) allDimensions w with ⟨r1, w1⟩
  rcases r1 with e | u
  · simp [ensureDimensions, hloop]
  · simp only [ensureDimensions, hloop]
    rcases hreg : regionStep cfg (extractDataId f.obsInfo) f.regionVertices w1 with ⟨r2, w2⟩
    have hpres := regionStep_task_done cfg (extractDataId f.obsInfo) f.regionVertices w1
    rw [hreg] at hpres
    rcases r2 with e2 | u2
    · simpa using hpres
    · simpa using hpres

lemma ensureDimensions_dimTrace (cfg : RawIngestConfig) (f : RawFile) (w : World)
    (d : DimName) (k : DimKey) :
    dimTrace d k (ensureDimensions cfg f w).2.trace =
      dimTrace d k (ensureDimLoop (extractDataId f.obsInfo) allDimensions w).2.trace := by
  rcases hloop : ensureDimLoop (extractDataId f.obsInfo) allDimensions w with ⟨r1, w1⟩
  rcases r1 with e | u
  · simp [ensureDimensions, hloop]
  · simp only [ensureDimensions, hloop]
    rcases hreg : regionStep cfg (extractDataId f.obsInfo) f.regionVertices w1 with ⟨r2, w2⟩
    have hpres := regionStep_dimTrace cfg (extractDataId f.obsInfo) f.regionVertices w1 d k
    rw [hreg] at hpres
    rcases r2 with e2 | u2
    · simpa using hpres
    · simpa using hpres

lemma ensureDimensions_err (cfg : RawIngestConfig) (f : RawFile) (w : World) (e : IngestErr)
    (h : (ensureDimLoop (extractDataId f.obsInfo) allDimensions w).1 = Except.error e) :
    (ensureDimensions cfg f w).1 = Except.error e := by
  rcases hloop : ensureDimLoop (extractDataId f.obsInfo) allDimensions w with ⟨r1, w1⟩
  rw [hloop] at h
  rcases r1 with e1 | u
  · cases h
    simp [ensureDimensions, hloop]
  · cases h

lemma regionStep_noVisit (cfg : RawIngestConfig) (id : DataId) (verts : List Nat) (w : World)
    (hr : cfg.doAddRegions = true) (hv : id.visit = none) :
    regionStep cfg id verts w = (Except.error IngestErr.visitKeyError, w) := by
  unfold regionStep
  rw [if_pos hr, hv]

lemma regionStep_off (cfg : RawIngestConfig) (id : DataId) (verts : List Nat) (w : World)
    (hr : cfg.doAddRegions = false) :
    regionStep cfg id verts w = (Except.ok (), w) := by
  unfold regionStep
  rw [if_neg (by simp [hr])]

/-- C8: extractDataId omits "visit" from the returned identity's dimension set
exactly when the observation has no visit id, omits "physical_filter" exactly
when it has no physical filter, and the dimension set is always a subset of
the configured dimension set while containing instrument, exposure and
detector. -/
theorem claim_C8 (o : ObsInfo) :
    (DimName.visit ∈ (extractDataId o).dims ↔ o.visit_id ≠ none) ∧
    (DimName.physical_filter ∈ (extractDataId o).dims ↔ o.physical_filter ≠ none) ∧
    (∀ d ∈ (extractDataId o).dims, d ∈ allDimensions) ∧
    DimName.instrument ∈ (extractDataId o).dims ∧
    DimName.exposure ∈ (extractDataId o).dims ∧
    DimName.detector ∈ (extractDataId o).dims := by
  rcases hv : o.visit_id with _ | v <;> rcases hp : o.physical_filter with _ | p <;>
    simp [extractDataId, allDimensions, hv, hp]

/-- C4: for a dimension of the file's identity that the cache has not
confirmed and the catalog lookup does not find, ensureDimensions inserts the
entry when the dimension is visit or exposure (given the static prerequisites
are satisfiable so the loop reaches it), and fails with a missing-prerequisite
LookupError, never creating the entry, when the dimension is instrument,
detector or physical_filter. -/
theorem claim_C4 (cfg : RawIngestConfig) (f : RawFile) (w : World) (d : DimName) (k : DimKey)
    (hk : dimKey d (extractDataId f.obsInfo) = some k)
    (hnd : (d, k) ∉ w.task.dimensionEntriesDone)
    (hnc : (d, k) ∉ w.cat.dimensionEntries) :
    ((d = DimName.visit ∨ d = DimName.exposure) →
       staticReadyB (extractDataId f.obsInfo) w = true →
       (d, k) ∈ (ensureDimensions cfg f w).2.cat.dimensionEntries) ∧
    ((d ≠ DimName.visit ∧ d ≠ DimName.exposure) →
       (∃ d' k', d' ≠ DimName.visit ∧ d' ≠ DimName.exposure ∧
          (ensureDimensions cfg f w).1 = Except.error (IngestErr.lookupError d' k')) ∧
       (d, k) ∉ (ensureDimensions cfg f w).2.cat.dimensionEntries) := by
  have hdall : d ∈ allDimensions := by cases d <;> simp [allDimensions]
  constructor
  · intro hve hready
    rw [ensureDimensions_cat_dims]
    exact ensureDimLoop_inserts (extractDataId f.obsInfo) allDimensions d k w hdall hk hve hnd hnc
      (fun d' _ hst k' hk' => staticReadyB_spec _ _ hready d' hst k' hk')
  · intro hst
    have hmain := ensureDimLoop_staticMissing (extractDataId f.obsInfo) allDimensions d k w hdall
      hk hst.1 hst.2 hnd hnc
    refine ⟨?_, ?_⟩
    · obtain ⟨⟨d', k', h1, h2, h3⟩, _⟩ := hmain
      exact ⟨d', k', h1, h2, ensureDimensions_err cfg f w _ h3⟩
    · rw [ensureDimensions_cat_dims]
      exact hmain.2

theorem claim_C4_witness :
    ((DimName.exposure, DimKey.exposure "i" 1)
        ∈ (ensureDimensions cfgNoReg fileA wStatics).2.cat.dimensionEntries) ∧
    ((∃ d' k', d' ≠ DimName.visit ∧ d' ≠ DimName.exposure ∧
        (ensureDimensions cfgNoReg fileA wNoPf).1 = Except.error (IngestErr.lookupError d' k')) ∧
     (DimName.physical_filter, DimKey.physical_filter "i" "f")
        ∉ (ensureDimensions cfgNoReg fileA wNoPf).2.cat.dimensionEntries) :=
  ⟨(claim_C4 cfgNoReg fileA wStatics DimName.exposure (DimKey.exposure "i" 1)
      (by decide) (by decide) (by decide)).1 (Or.inr rfl) (by decide),
   (claim_C4 cfgNoReg fileA wNoPf DimName.physical_filter (DimKey.physical_filter "i" "f")
      (by decide) (by decide) (by decide)).2 ⟨by decide, by decide⟩⟩

/-- C5: dimension reconciliation touches the catalog at most once per
dimension identity per cache lifetime: a successful ensureDimensions marks
every dimension identity of the file in the in-process cache, and for an
identity already confirmed by the cache a later ensureDimensions emits no
registry read (findDimensionEntry) or write (addDimensionEntry) for it —
its sub-trace of such calls is unchanged. -/
theorem claim_C5 (cfg : RawIngestConfig) (f : RawFile) (w : World) (d : DimName) (k : DimKey)
    (hk : dimKey d (extractDataId f.obsInfo) = some k) :
    ((ensureDimensions cfg f w).1 = Except.ok (extractDataId f.obsInfo) →
       (d, k) ∈ (ensureDimensions cfg f w).2.task.dimensionEntriesDone) ∧
    ((d, k) ∈ w.task.dimensionEntriesDone →
       dimTrace d k (ensureDimensions cfg f w).2.trace = dimTrace d k w.trace) := by
  have hdall : d ∈ allDimensions := by cases d <;> simp [allDimensions]
  constructor
  · intro hok
    have hloopok : (ensureDimLoop (extractDataId f.obsInfo) allDimensions w).1 = Except.ok () := by
      rcases hloop : ensureDimLoop (extractDataId f.obsInfo) allDimensions w with ⟨r1, w1⟩
      rcases r1 with e | u
      · rw [ensureDimensions_err cfg f w e (by rw [hloop])] at hok
        cases hok
      · cases u
        rfl
    rw [ensureDimensions_task_done]
    exact ensureDimLoop_marks (extractDataId f.obsInfo) allDimensions w hloopok d hdall k hk
  · intro hin
    rw [ensureDimensions_dimTrace]
    exact ensureDimLoop_trace_cached (extractDataId f.obsInfo) allDimensions d k w hin

theorem claim_C5_witness :
    ((DimName.exposure, DimKey.exposure "i" 1)
        ∈ (ensureDimensions cfgNoReg fileA wStatics).2.task.dimensionEntriesDone) ∧
    dimTrace DimName.exposure (DimKey.exposure "i" 1)
        (ensureDimensions cfgNoReg fileA wCachedExp).2.trace
      = dimTrace DimName.exposure (DimKey.exposure "i" 1) wCachedExp.trace :=
  ⟨(claim_C5 cfgNoReg fileA wStatics DimName.exposure (DimKey.exposure "i" 1)
      (by decide)).1 rfl,
   (claim_C5 cfgNoReg fileA wCachedExp DimName.exposure (DimKey.exposure "i" 1)
      (by decide)).2 (by decide)⟩

/-- C6: the detector-level region write is idempotent on repeats: when a
region already exists for the (instrument, visit, detector) key the second
write attempt is a benign no-op (no error, catalog unchanged, no vertices
accumulated into the visit map), while the first successful write stores the
region and accumulates its vertices. -/
theorem claim_C6 (cfg : RawIngestConfig) (id : DataId) (verts : List Nat) (w : World) (v : Nat)
    (hr : cfg.doAddRegions = true) (hv : id.visit = some v) :
    ((alistFind w.cat.detectorRegions (id.instrument, v, id.detector)).isSome = true →
       (regionStep cfg id verts w).1 = Except.ok () ∧
       (regionStep cfg id verts w).2.cat = w.cat ∧
       (regionStep cfg id verts w).2.task.visitRegions = w.task.visitRegions) ∧
    (alistFind w.cat.detectorRegions (id.instrument, v, id.detector) = none →
       (regionStep cfg id verts w).1 = Except.ok () ∧
       alistFind (regionStep cfg id verts w).2.cat.detectorRegions (id.instrument, v, id.detector)
         = some (ConvexPolygon verts) ∧
       (regionStep cfg id verts w).2.task.visitRegions
         = accumulate w.task.visitRegions (id.instrument, v) verts) := by
  constructor
  · intro hsome
    rcases hfind : alistFind w.cat.detectorRegions (id.instrument, v, id.detector) with _ | r
    · rw [hfind] at hsome
      cases hsome
    · have hstep : regionStep cfg id verts w =
          (Except.ok (),
           { w with trace := w.trace ++ [CatalogOp.setDetRegion id.instrument v id.detector] }) := by
        simp only [regionStep, hr, if_true, hv, setDetectorRegion, hfind]
        rfl
      rw [hstep]
      exact ⟨rfl, rfl, rfl⟩
  · intro hnone
    have hstep : regionStep cfg id verts w =
        (Except.ok (),
         { task := { w.task with
             visitRegions := accumulate w.task.visitRegions (id.instrument, v) verts },
           cat := { w.cat with
             detectorRegions :=
               ((id.instrument, v, id.detector), ConvexPolygon verts) :: w.cat.detectorRegions },
           trace := w.trace ++ [CatalogOp.setDetRegion id.instrument v id.detector] }) := by
      simp only [regionStep, hr, if_true, hv, setDetectorRegion, hnone]
      rfl
    rw [hstep]
    refine ⟨rfl, ?_, rfl⟩
    simp [alistFind]

theorem claim_C6_witness :
    ((regionStep cfgContinR (extractDataId obsA) [20] wDetReg).1 = Except.ok () ∧
     (regionStep cfgContinR (extractDataId obsA) [20] wDetReg).2.cat = wDetReg.cat ∧
     (regionStep cfgContinR (extractDataId obsA) [20] wDetReg).2.task.visitRegions
       = wDetReg.task.visitRegions) ∧
    ((regionStep cfgContinR (extractDataId obsA) [20] wStatics).1 = Except.ok () ∧
     alistFind (regionStep cfgContinR (extractDataId obsA) [20] wStatics).2.cat.detectorRegions
         ("i", 3, 2) = some (ConvexPolygon [20]) ∧
     (regionStep cfgContinR (extractDataId obsA) [20] wStatics).2.task.visitRegions
       = accumulate wStatics.task.visitRegions ("i", 3) [20]) :=
  ⟨(claim_C6 cfgContinR (extractDataId obsA) [20] wDetReg 3 rfl rfl).1 (by decide),
   (claim_C6 cfgContinR (extractDataId obsA) [20] wStatics 3 rfl rfl).2 (by decide)⟩

/-- C7: the post-pass commits, for an accumulated (instrument, visit) key,
the convex polygon built from any pre-existing catalog region's vertices
prepended to the accumulated detector vertices, replacing the prior stored
value; and the vertex multiset fed to the polygon is independent of the
order in which the per-file contributions were accumulated. -/
theorem claim_C7 (w : World) (i : String) (v : Nat) (verts : List Nat)
    (hnd : (w.task.visitRegions.map Prod.fst).Nodup)
    (hmem : ((i, v), verts) ∈ w.task.visitRegions) :
    alistFind (addVisitRegions w).cat.visitRegions (i, v)
      = some (ConvexPolygon (regVerts (alistFind w.cat.visitRegions (i, v)) ++ verts)) ∧
    (∀ (m L1 L2 : List ((String × Nat) × List Nat)) (key : String × Nat), L1.Perm L2 →
       (optVerts (alistFind (accumAll m L1) key)).Perm
         (optVerts (alistFind (accumAll m L2) key))) :=
  ⟨addVisitRegionsLoop_find w.task.visitRegions w i v verts hnd hmem,
   fun m L1 L2 key h => optVerts_accumAll_perm m L1 L2 key h⟩

theorem claim_C7_witness :
    alistFind (addVisitRegions wAccum).cat.visitRegions ("i", 3)
      = some (ConvexPolygon (regVerts (alistFind wAccum.cat.visitRegions ("i", 3)) ++ [10, 11])) ∧
    (optVerts (alistFind (accumAll [] [(("a", 1), [1]), (("a", 1), [2])]) ("a", 1))).Perm
      (optVerts (alistFind (accumAll [] [(("a", 1), [2]), (("a", 1), [1])]) ("a", 1))) :=
  ⟨(claim_C7 wAccum "i" 3 [10, 11] (by decide) (by decide)).1,
   (claim_C7 wAccum "i" 3 [10, 11] (by decide) (by decide)).2
     [] [(("a", 1), [1]), (("a", 1), [2])] [(("a", 1), [2]), (("a", 1), [1])] ("a", 1)
     (by decide)⟩

/-- C10: with region computation enabled, a file whose observation lacks a
visit id makes ensureDimensions raise an error (the region block projects the
identity onto visit/detector/instrument, which fails without a visit value)
and aborts the file's processing, even though the same identity is accepted
when region computation is disabled. -/
theorem claim_C10 (cfg : RawIngestConfig) (f : RawFile) (w : World)
    (hv : f.obsInfo.visit_id = none)
    (hr : cfg.doAddRegions = true)
    (hready : staticReadyB (extractDataId f.obsInfo) w = true) :
    (ensureDimensions cfg f w).1 = Except.error IngestErr.visitKeyError ∧
    (processFile cfg f w).1 = Except.error IngestErr.visitKeyError ∧
    (ensureDimensions { cfg with doAddRegions := false } f w).1
      = Except.ok (extractDataId f.obsInfo) := by
  have hloopok : (ensureDimLoop (extractDataId f.obsInfo) allDimensions w).1 = Except.ok () :=
    ensureDimLoop_ok _ _ w
      (fun d _ hst k hk => staticReadyB_spec _ _ hready d hst k hk)
  rcases hloop : ensureDimLoop (extractDataId f.obsInfo) allDimensions w with ⟨r1, w1⟩
  rw [hloop] at hloopok
  rcases r1 with e | u
  · simp at hloopok
  · cases u
    have hvisit : (extractDataId f.obsInfo).visit = none := hv
    have hED : ensureDimensions cfg f w = (Except.error IngestErr.visitKeyError, w1) := by
      simp only [ensureDimensions, hloop]
      rw [regionStep_noVisit cfg _ _ _ hr hvisit]
    refine ⟨by rw [hED], ?_, ?_⟩
    · simp only [processFile, hED]
    · simp only [ensureDimensions, hloop]
      rw [regionStep_off ({ cfg with doAddRegions := false }) _ _ _ rfl]

theorem claim_C10_witness :
    (ensureDimensions cfgContinR fileNoVisit wStatics).1 = Except.error IngestErr.visitKeyError ∧
    (processFile cfgContinR fileNoVisit wStatics).1 = Except.error IngestErr.visitKeyError ∧
    (ensureDimensions { cfgContinR with doAddRegions := false } fileNoVisit wStatics).1
      = Except.ok (extractDataId fileNoVisit.obsInfo) :=
  claim_C10 cfgContinR fileNoVisit wStatics rfl rfl (by decide)

lemma withTransaction_ok {α : Type} (body : World → Except IngestErr α × World) (w : World)
    (a : α) (w' : World) (h : body w = (Except.ok a, w')) :
    withTransaction body w = (Except.ok a, w') := by
  unfold withTransaction
  rw [h]

lemma withTransaction_cat {α : Type} (body : World → Except IngestErr α × World) (w : World)
    (e : IngestErr) (h : (withTransaction body w).1 = Except.error e) :
    (withTransaction body w).2.cat = w.cat := by
  rcases hb : body w with ⟨rb, wb⟩
  rcases rb with eb | ab
  · simp only [withTransaction, hb]
  · simp [withTransaction, hb] at h

lemma catalogIngest_conflict (key : String × Nat × Nat) (coll : String) (w : World)
    (h : (key, coll) ∈ w.cat.datasets) :
    catalogIngest key coll w =
      (Except.error (IngestErr.ingestConflict key coll),
       { w with trace := w.trace ++ [CatalogOp.ingestOp key coll] }) := by
  simp only [catalogIngest]
  rw [if_pos h]

lemma catalogIngest_new (key : String × Nat × Nat) (coll : String) (w : World)
    (h : (key, coll) ∉ w.cat.datasets) :
    catalogIngest key coll w =
      (Except.ok (),
       { w with
         cat := { w.cat with datasets := (key, coll) :: w.cat.datasets },
         trace := w.trace ++ [CatalogOp.ingestOp key coll] }) := by
  simp only [catalogIngest]
  rw [if_neg h]

lemma registerStash_cat_datasets (s : String) (w : World) :
    (registerStash s w).cat.datasets = w.cat.datasets := rfl

lemma registerStash_mem_collections (s : String) (w : World) :
    s ∈ (registerStash s w).cat.collections := by
  show s ∈ (if s ∈ w.cat.collections then w.cat.collections else s :: w.cat.collections)
  split
  · assumption
  · exact List.mem_cons_self _ _

/-- C2: when ingest into the default collection hits a conflict, the
per-file transaction scope leaves the catalog exactly as it was before the
attempt (the attempt's effects are absent when the conflict policy is
consulted), and the scope's outcome then follows the policy: under fail the
conflict is re-raised (the scope rolls back), under ignore it is swallowed. -/
theorem claim_C2 (cfg : RawIngestConfig) (id : DataId) (w : World)
    (h : (dsKey id, cfg.run) ∈ w.cat.datasets) :
    (attemptDefaultIngest cfg id w).2.cat = w.cat ∧
    (cfg.conflict = ConflictPolicy.fail →
       (attemptDefaultIngest cfg id w).1
         = Except.error (IngestErr.ingestConflict (dsKey id) cfg.run)) ∧
    (cfg.conflict = ConflictPolicy.ignore →
       (attemptDefaultIngest cfg id w).1 = Except.ok false) := by
  have hing : ingestFile cfg id none w =
      (Except.error (IngestErr.ingestConflict (dsKey id) cfg.run),
       { w with trace := w.trace ++ [CatalogOp.ingestOp (dsKey id) cfg.run] }) :=
    catalogIngest_conflict (dsKey id) cfg.run w h
  rcases hc : cfg.conflict
  · have hres : attemptDefaultIngest cfg id w =
        (Except.ok false,
         { w with trace := w.trace ++ [CatalogOp.ingestOp (dsKey id) cfg.run] }) := by
      simp only [attemptDefaultIngest, withTransaction, hing, hc]
    rw [hres]
    refine ⟨rfl, ?_, fun _ => rfl⟩
    intro hf
    cases hf
  · have hres : attemptDefaultIngest cfg id w =
        (Except.error (IngestErr.ingestConflict (dsKey id) cfg.run),
         { { w with trace := w.trace ++ [CatalogOp.ingestOp (dsKey id) cfg.run] }
             with cat := w.cat }) := by
      simp only [attemptDefaultIngest, withTransaction, hing, hc]
    rw [hres]
    refine ⟨rfl, fun _ => rfl, ?_⟩
    intro hf
    cases hf

theorem claim_C2_witness :
    ((dsKey (extractDataId obsA), cfgFail.run) ∈ wConflict.cat.datasets) ∧
    (attemptDefaultIngest cfgFail (extractDataId obsA) wConflict).2.cat = wConflict.cat ∧
    (attemptDefaultIngest cfgFail (extractDataId obsA) wConflict).1
      = Except.error (IngestErr.ingestConflict (dsKey (extractDataId obsA)) cfgFail.run) :=
  ⟨by decide,
   (claim_C2 cfgFail (extractDataId obsA) wConflict (by decide)).1,
   (claim_C2 cfgFail (extractDataId obsA) wConflict (by decide)).2.1 rfl⟩

/-- C3: for a file hitting an ingest conflict in the default collection under
conflict=ignore: with a stash configured and not yet registered, processFile
registers the stash collection in the catalog and ingests the dataset into
the stash inside a new transaction, so the dataset lands in the stash while
the default collection's datasets are untouched; with no stash configured the
file is dropped, producing no dataset and no error. -/
theorem claim_C3 (cfg : RawIngestConfig) (f : RawFile) (w : World) (id : DataId)
    (hig : cfg.conflict = ConflictPolicy.ignore)
    (hE : (ensureDimensions cfg f w).1 = Except.ok id)
    (hconf : (dsKey id, cfg.run) ∈ (ensureDimensions cfg f w).2.cat.datasets) :
    (∀ s, cfg.stash = some s →
       (dsKey id, s) ∉ (ensureDimensions cfg f w).2.cat.datasets →
       (ensureDimensions cfg f w).2.task.stashRegistered = false →
       (processFile cfg f w).1 = Except.ok () ∧
       (processFile cfg f w).2.cat.datasets
         = (dsKey id, s) :: (ensureDimensions cfg f w).2.cat.datasets ∧
       s ∈ (processFile cfg f w).2.cat.collections) ∧
    (cfg.stash = none →
       (processFile cfg f w).1 = Except.ok () ∧
       (processFile cfg f w).2.cat.datasets = (ensureDimensions cfg f w).2.cat.datasets) := by
  rcases hED : ensureDimensions cfg f w with ⟨r1, w1⟩
  rw [hED] at hE hconf
  have hE2 : r1 = Except.ok id := hE
  subst hE2
  have hconf1 : (dsKey id, cfg.run) ∈ w1.cat.datasets := hconf
  have hing : ingestFile cfg id none w1 =
      (Except.error (IngestErr.ingestConflict (dsKey id) cfg.run),
       { w1 with trace := w1.trace ++ [CatalogOp.ingestOp (dsKey id) cfg.run] }) :=
    catalogIngest_conflict (dsKey id) cfg.run w1 hconf1
  have hatt : attemptDefaultIngest cfg id w1 =
      (Except.ok false,
       { w1 with trace := w1.trace ++ [CatalogOp.ingestOp (dsKey id) cfg.run] }) := by
    simp only [attemptDefaultIngest, withTransaction, hing, hig]
  constructor
  · intro s hs hnot hreg0
    have hnot1 : (dsKey id, s) ∉ w1.cat.datasets := hnot
    have hreg1 : w1.task.stashRegistered = false := hreg0
    have hpf : processFile cfg f w =
        withTransaction (fun w0 => ingestFile cfg id (some s) w0)
          (registerStash s
            { w1 with trace := w1.trace ++ [CatalogOp.ingestOp (dsKey id) cfg.run] }) := by
      simp only [processFile, hED, hatt, hig, hs]
      rw [if_neg (show ¬(({ w1 with
          trace := w1.trace ++ [CatalogOp.ingestOp (dsKey id) cfg.run] } : World).task.stashRegistered
            = true) by
        intro hh
        rw [show ({ w1 with
          trace := w1.trace ++ [CatalogOp.ingestOp (dsKey id) cfg.run] } : World).task.stashRegistered
            = w1.task.stashRegistered from rfl, hreg1] at hh
        cases hh)]
    have hingS : ingestFile cfg id (some s)
        (registerStash s
          { w1 with trace := w1.trace ++ [CatalogOp.ingestOp (dsKey id) cfg.run] }) =
        (Except.ok (),
         { (registerStash s
             { w1 with trace := w1.trace ++ [CatalogOp.ingestOp (dsKey id) cfg.run] }) with
           cat := { (registerStash s
             { w1 with trace := w1.trace ++ [CatalogOp.ingestOp (dsKey id) cfg.run] }).cat with
             datasets := (dsKey id, s) :: (registerStash s
               { w1 with trace := w1.trace ++ [CatalogOp.ingestOp (dsKey id) cfg.run] }).cat.datasets },
           trace := (registerStash s
             { w1 with trace := w1.trace ++ [CatalogOp.ingestOp (dsKey id) cfg.run] }).trace
               ++ [CatalogOp.ingestOp (dsKey id) s] }) :=
      catalogIngest_new (dsKey id) s _ hnot1
    rw [hpf, withTransaction_ok _ _ _ _ hingS]
    exact ⟨rfl, rfl, registerStash_mem_collections s _⟩
  · intro hnone
    have hpf : processFile cfg f w =
        (Except.ok (),
         { w1 with trace := w1.trace ++ [CatalogOp.ingestOp (dsKey id) cfg.run] }) := by
      simp only [processFile, hED, hatt, hig, hnone]
    rw [hpf]
    exact ⟨rfl, rfl⟩

theorem claim_C3_witness :
    (processFile cfgStash fileA wConflict).1 = Except.ok () ∧
    (processFile cfgStash fileA wConflict).2.cat.datasets
      = (dsKey (extractDataId obsA), "s")
          :: (ensureDimensions cfgStash fileA wConflict).2.cat.datasets ∧
    "s" ∈ (processFile cfgStash fileA wConflict).2.cat.collections :=
  (claim_C3 cfgStash fileA wConflict (extractDataId obsA) rfl rfl (by decide)).1
    "s" rfl (by decide) (by decide)

/-- C1: under the rollback batch policy, when run raises an error the whole
batch transaction is rolled back: the catalog's dimension entries, datasets,
detector and visit regions (and collections) are exactly their pre-run
values, undoing every file processed before the failure and the post-pass
visit-region commit.  (Dataset-type registration happens before the
transaction opens and is the one catalog field not covered.)  -/
theorem claim_C1 (cfg : RawIngestConfig) (files : List RawFile) (w : World) (e : IngestErr)
    (hpol : cfg.onError = ErrorPolicy.rollback)
    (herr : (run cfg files w).1 = Except.error e) :
    (run cfg files w).2.cat.dimensionEntries = w.cat.dimensionEntries ∧
    (run cfg files w).2.cat.datasets = w.cat.datasets ∧
    (run cfg files w).2.cat.detectorRegions = w.cat.detectorRegions ∧
    (run cfg files w).2.cat.visitRegions = w.cat.visitRegions ∧
    (run cfg files w).2.cat.collections = w.cat.collections := by
  have hrun : run cfg files w =
      withTransaction (fun wt =>
        match processAll cfg files wt with
        | (Except.ok _, w1) =>
            (Except.ok (), if cfg.doAddRegions then addVisitRegions w1 else w1)
        | (Except.error e, w1) => (Except.error e, w1)) (registerDatasetType "raw" w) := by
    simp only [run, hpol]
  rw [hrun] at herr ⊢
  have hcat := withTransaction_cat _ (registerDatasetType "raw" w) e herr
  rw [hcat]
  exact ⟨rfl, rfl, rfl, rfl, rfl⟩

theorem claim_C1_witness :
    (run cfgRoll [fileA] wEmpty).1
      = Except.error (IngestErr.lookupError DimName.instrument (DimKey.instrument "i")) ∧
    ((run cfgRoll [fileA] wEmpty).2.cat.dimensionEntries = wEmpty.cat.dimensionEntries ∧
     (run cfgRoll [fileA] wEmpty).2.cat.datasets = wEmpty.cat.datasets ∧
     (run cfgRoll [fileA] wEmpty).2.cat.detectorRegions = wEmpty.cat.detectorRegions ∧
     (run cfgRoll [fileA] wEmpty).2.cat.visitRegions = wEmpty.cat.visitRegions ∧
     (run cfgRoll [fileA] wEmpty).2.cat.collections = wEmpty.cat.collections) :=
  ⟨rfl,
   claim_C1 cfgRoll [fileA] wEmpty
     (IngestErr.lookupError DimName.instrument (DimKey.instrument "i")) rfl rfl⟩

/-- C9 counterexample: the visit-region map is an instance field that run
never clears, so after a successful run the map is not empty, and a later
run call with an empty file list still re-merges and re-commits the earlier
vertices, changing the stored visit region — refuting the claim that a later
run starts from an empty visit-region map. -/
theorem claim_C9_counterexample :
    (run cfgContinR [fileA] wStatics).2.task.visitRegions ≠ [] ∧
    (run cfgContinR [] (run cfgContinR [fileA] wStatics).2).2.cat.visitRegions
      ≠ (run cfgContinR [fileA] wStatics).2.cat.visitRegions :=
  ⟨by decide, by decide⟩

/-- C9 amended: the accumulated visit-region map is owned for the lifetime of
the driver instance, not of one run invocation: a later run call (even with
no files) starts from the map as the earlier runs left it, keeps it intact,
and its post-pass re-merges and re-commits every earlier accumulated key
against the catalog's current visit region. -/
theorem claim_C9 (cfg : RawIngestConfig) (w : World)
    (hr : cfg.doAddRegions = true)
    (hnd : (w.task.visitRegions.map Prod.fst).Nodup) :
    (run cfg [] w).2.task.visitRegions = w.task.visitRegions ∧
    (∀ i v verts, ((i, v), verts) ∈ w.task.visitRegions →
       alistFind (run cfg [] w).2.cat.visitRegions (i, v)
         = some (ConvexPolygon (regVerts (alistFind w.cat.visitRegions (i, v)) ++ verts))) := by
  have hrun : run cfg [] w = (Except.ok (), addVisitRegions (registerDatasetType "raw" w)) := by
    rcases hpol : cfg.onError
    · simp only [run, hpol, processAllContinue, hr, if_true]
    · simp only [run, hpol, processAll, hr, if_true]
    · simp only [run, hpol, withTransaction, processAll, hr, if_true]
  rw [hrun]
  constructor
  · show (addVisitRegionsLoop (registerDatasetType "raw" w).task.visitRegions
      (registerDatasetType "raw" w)).task.visitRegions = w.task.visitRegions
    rw [addVisitRegionsLoop_task]
    rfl
  · intro i v verts hmem
    exact addVisitRegionsLoop_find (registerDatasetType "raw" w).task.visitRegions
      (registerDatasetType "raw" w) i v verts hnd hmem

theorem claim_C9_witness :
    (run cfgContinR [] wAccum).2.task.visitRegions = wAccum.task.visitRegions ∧
    alistFind (run cfgContinR [] wAccum).2.cat.visitRegions ("i", 3)
      = some (ConvexPolygon (regVerts (alistFind wAccum.cat.visitRegions ("i", 3)) ++ [10, 11])) :=
  ⟨(claim_C9 cfgContinR wAccum rfl (by decide)).1,
   (claim_C9 cfgContinR wAccum rfl (by decide)).2 "i" 3 [10, 11] (by decide)⟩

theorem claim_C8_witness :
    DimName.visit ∈ (extractDataId obsA).dims ∧
    (DimName.visit ∈ (extractDataId obsNoVisit).dims → False) ∧
    DimName.visit ∈ allDimensions :=
  ⟨(claim_C8 obsA).1.mpr (by decide),
   fun h => ((claim_C8 obsNoVisit).1.mp h) rfl,
   (claim_C8 obsA).2.2.1 DimName.visit ((claim_C8 obsA).1.mpr (by decide))⟩
